import Mathlib

/-!
# Verification of the lurker extension's network-call capture component

Shallow embedding of the background service worker
(`extension/src/background.ts`, re-exported through `core/src/types.ts`),
the panel's chat submission (`extension/src/panel/index.tsx`) and the
serialization boundary (`serializeNetworkCalls` / `serializeHeaders`).

Conventions of the embedding:
* `Record<number, NetworkCall[]>` becomes an association list
  `List (Int × List NetworkCall)`; assignment to an existing key replaces
  its value in place, assignment to a fresh key appends it.
* `Date.now()` values are passed in explicitly as `now : Nat`.
* A fetch `Request` constructed with a string body is modelled as holding
  that string (the `typeof req.body === 'string'` branch of the replacer);
  an absent body (`undefined`) yields `req.body === null`.
* `JSON.stringify(_, serializeNetworkCalls)` followed by `JSON.parse` is
  modelled by `serializeNetworkCall` into plain-data structures, together
  with an explicit JSON tree encoding and a parser for the round-trip
  property.
-/

namespace Lurker

/-- Values `request.body` can hold in the embedding: `null`, a string body
(as passed to the `Request` constructor), or an opaque stream. -/
inductive ReqBody where
  | nullBody : ReqBody
  | strBody (s : String) : ReqBody
  | streamBody : ReqBody
  deriving DecidableEq, Repr

/-- `NetworkRequest`: a fetch `Request` extended with `timestamp` and
`requestId` (core/src/types.ts). Headers are kept as a plain list of
key/value pairs. -/
structure NetworkRequest where
  url : String
  method : String
  headers : List (String × String)
  timestamp : Nat
  requestId : String
  body : ReqBody
  deriving DecidableEq, Repr

/-- `NetworkResponse`: a fetch `Response` extended with `timestamp` and
`requestId` (core/src/types.ts). -/
structure NetworkResponse where
  status : Nat
  statusText : String
  headers : List (String × String)
  timestamp : Nat
  requestId : String
  deriving DecidableEq, Repr

/-- `NetworkCall`: one observed request paired with its possibly absent
response (core/src/types.ts). -/
structure NetworkCall where
  request : NetworkRequest
  response : Option NetworkResponse
  deriving DecidableEq, Repr

/-- The `networkCallsByTab : Record<number, NetworkCall[]>` global. -/
abbrev TabMap := List (Int × List NetworkCall)

/-- Property access `networkCallsByTab[tabId]`: first binding of the key. -/
def lookupTab : TabMap → Int → Option (List NetworkCall)
  | [], _ => none
  | (t, l) :: rest, tabId => if t = tabId then some l else lookupTab rest tabId

/-- Assignment `networkCallsByTab[tabId] = l`: replaces the value of an
existing key in place, appends a fresh key at the end. -/
def setTab : TabMap → Int → List NetworkCall → TabMap
  | [], tabId, l => [(tabId, l)]
  | (t, l') :: rest, tabId, l =>
    if t = tabId then (tabId, l) :: rest else (t, l') :: setTab rest tabId l

/-- `delete networkCallsByTab[tabId]` (chrome.tabs.onRemoved handler). -/
def eraseTab : TabMap → Int → TabMap
  | [], _ => []
  | (t, l) :: rest, tabId =>
    if t = tabId then rest else (t, l) :: eraseTab rest tabId

/-- `for (const tabId in networkCallsByTab) networkCallsByTab[tabId] = []`
(chrome.tabs.onActivated handler and the CLEAR_NETWORK_CALLS branch). -/
def clearAllTabs (m : TabMap) : TabMap :=
  m.map (fun p => (p.1, ([] : List NetworkCall)))

/-- `Object.values(networkCallsByTab).forEach(tabCalls =>
allNetworkCalls.push(...tabCalls))` (GET_NETWORK_CALLS branch). -/
def flattenAll (m : TabMap) : List NetworkCall :=
  (m.map Prod.snd).flatten

/-- The tab's stored sequence, `[]` when the key is absent. -/
def getTabCalls (m : TabMap) (tabId : Int) : List NetworkCall :=
  (lookupTab m tabId).getD []

/-- The background script's mutable globals: the per-tab store, the
`isRecordingEnabled` flag, and the `chrome.storage.local` mirror of the
flag (`none` when the key was never written). -/
structure BgState where
  networkCallsByTab : TabMap
  isRecordingEnabled : Bool
  storedFlag : Option Bool
  deriving DecidableEq, Repr

/-- `chrome.webRequest.WebRequestBodyDetails`, restricted to the fields the
listener reads. `requestBody` holds `JSON.stringify(details.requestBody)`
when a body is present. The field `resourceType` stands for `details.type`. -/
structure WebRequestBodyDetails where
  url : String
  method : String
  resourceType : String
  tabId : Int
  requestId : String
  requestBody : Option String
  deriving DecidableEq, Repr

/-- `chrome.webRequest.WebResponseDetails`, restricted to the fields the
listener reads. -/
structure WebResponseDetails where
  resourceType : String
  tabId : Int
  requestId : String
  statusCode : Nat
  statusLine : String
  deriving DecidableEq, Repr

/-- `{ cancel: false }`, the blocking-response value of onBeforeRequest. -/
structure BlockingResponse where
  cancel : Bool
  deriving DecidableEq, Repr

/-- `type === 'xmlhttprequest' || type === 'fetch'`. -/
def isXhrOrFetch (t : String) : Bool :=
  t == "xmlhttprequest" || t == "fetch"

/-- JavaScript `a || b` on strings: the empty string is falsy. -/
def jsOrString (a b : String) : String :=
  if a = "" then b else a

/-- The `Request` construction plus custom-property assignment in the
onBeforeRequest listener. -/
def mkNetworkRequest (d : WebRequestBodyDetails) (now : Nat) : NetworkRequest :=
  { url := d.url
    method := d.method
    headers := []
    timestamp := now
    requestId := d.requestId
    body := match d.requestBody with
      | some s => ReqBody.strBody s
      | none => ReqBody.nullBody }

/-- The `Response` construction plus custom-property assignment in the
onCompleted listener (`statusText: details.statusLine || ''`, empty
headers). -/
def mkNetworkResponse (d : WebResponseDetails) (now : Nat) : NetworkResponse :=
  { status := d.statusCode
    statusText := jsOrString d.statusLine ""
    headers := []
    timestamp := now
    requestId := d.requestId }

/-- The `callData` record pushed by the onBeforeRequest listener. -/
def mkNetworkCall (d : WebRequestBodyDetails) (now : Nat) : NetworkCall :=
  { request := mkNetworkRequest d now, response := none }

/-- The `chrome.webRequest.onBeforeRequest` listener. Returns the updated
globals and the blocking response. -/
def onBeforeRequest (st : BgState) (d : WebRequestBodyDetails) (now : Nat) :
    BgState × BlockingResponse :=
  if ¬ isXhrOrFetch d.resourceType then
    (st, { cancel := false })
  else if ¬ st.isRecordingEnabled then
    (st, { cancel := false })
  else
    let m := st.networkCallsByTab
    let m1 := if (lookupTab m d.tabId).isNone then setTab m d.tabId [] else m
    let m2 := setTab m1 d.tabId ((getTabCalls m1 d.tabId) ++ [mkNetworkCall d now])
    ({ st with networkCallsByTab := m2 }, { cancel := false })

/-- `networkCallsByTab[details.tabId].find(call => call.request.requestId
=== details.requestId)` followed by `callData.response = response`: sets
the response of the first matching call. -/
def setFirstMatch : List NetworkCall → String → NetworkResponse → List NetworkCall
  | [], _, _ => []
  | c :: rest, rid, resp =>
    if c.request.requestId = rid then
      { c with response := some resp } :: rest
    else
      c :: setFirstMatch rest rid resp

/-- The `chrome.webRequest.onCompleted` listener. -/
def onCompleted (st : BgState) (d : WebResponseDetails) (now : Nat) : BgState :=
  if ¬ isXhrOrFetch d.resourceType then
    st
  else if ¬ st.isRecordingEnabled then
    st
  else
    let resp := mkNetworkResponse d now
    match lookupTab st.networkCallsByTab d.tabId with
    | none => st
    | some calls =>
      { st with networkCallsByTab :=
          setTab st.networkCallsByTab d.tabId (setFirstMatch calls d.requestId resp) }

/-- The `chrome.tabs.onRemoved` listener. -/
def onTabRemoved (st : BgState) (tabId : Int) : BgState :=
  { st with networkCallsByTab := eraseTab st.networkCallsByTab tabId }

/-- The `chrome.tabs.onActivated` listener: clears every tab's sequence;
the active tab id is only logged. -/
def onTabActivated (st : BgState) (_activeTabId : Int) : BgState :=
  { st with networkCallsByTab := clearAllTabs st.networkCallsByTab }

/-! ## Serialization boundary (`serializeNetworkCalls` replacer) -/

/-- The `bodyInfo` value produced by the replacer: `{type:'empty'}`,
`{type:'string', preview}`, or `{type:'stream', note}`. -/
inductive BodyInfo where
  | empty : BodyInfo
  | strPreview (preview : String) : BodyInfo
  | streamNote (note : String) : BodyInfo
  deriving DecidableEq, Repr

/-- The plain-data object the replacer returns for a `Request`. -/
structure SerializedRequest where
  url : String
  method : String
  headers : List (String × String)
  timestamp : Nat
  requestId : String
  bodyInfo : BodyInfo
  deriving DecidableEq, Repr

/-- The plain-data object the replacer returns for a `Response`. -/
structure SerializedResponse where
  status : Nat
  statusText : String
  headers : List (String × String)
  timestamp : Nat
  requestId : String
  bodyInfo : BodyInfo
  deriving DecidableEq, Repr

/-- A `NetworkCall` after `JSON.stringify(_, serializeNetworkCalls)` and
`JSON.parse`: the request and response replaced by their plain forms,
`null` responses staying `null`. -/
structure SerializedNetworkCall where
  request : SerializedRequest
  response : Option SerializedResponse
  deriving DecidableEq, Repr

/-- `serializeHeaders`: in the embedding headers are already plain pairs;
the Headers-iteration try/catch cannot fail here. -/
def serializeHeaders (hs : List (String × String)) : List (String × String) :=
  hs

/-- The `bodyInfo` computation of the replacer's Request branch:
`req.body === null`, `typeof req.body === 'string'` with
`substring(0, 1000)`, or the stream note. -/
def serializeBody : ReqBody → BodyInfo
  | ReqBody.nullBody => BodyInfo.empty
  | ReqBody.strBody s => BodyInfo.strPreview (s.take 1000)
  | ReqBody.streamBody =>
      BodyInfo.streamNote "Body content is a stream and cannot be fully serialized"

/-- The replacer's `value instanceof Request` branch. -/
def serializeNetworkRequest (r : NetworkRequest) : SerializedRequest :=
  { url := r.url
    method := r.method
    headers := serializeHeaders r.headers
    timestamp := r.timestamp
    requestId := r.requestId
    bodyInfo := serializeBody r.body }

/-- The replacer's `value instanceof Response` branch. -/
def serializeNetworkResponse (r : NetworkResponse) : SerializedResponse :=
  { status := r.status
    statusText := r.statusText
    headers := serializeHeaders r.headers
    timestamp := r.timestamp
    requestId := r.requestId
    bodyInfo :=
      BodyInfo.streamNote "Response body is a stream and cannot be fully serialized" }

/-- One `NetworkCall` through the replacer: the wrapper object and `null`
pass through unchanged, the request and response are replaced. -/
def serializeNetworkCall (c : NetworkCall) : SerializedNetworkCall :=
  { request := serializeNetworkRequest c.request
    response := c.response.map serializeNetworkResponse }

/-! ## Control surface (`chrome.runtime.onMessage` listener) -/

/-- `PanelMessage`: `{type: string, enabled?: boolean}`; `enabled = none`
models a message without an `enabled` own-property. -/
structure PanelMessage where
  type : String
  enabled : Option Bool
  deriving DecidableEq, Repr

/-- The values passed to `sendResponse` by the four message branches. -/
inductive MsgReply where
  | calls (cs : List SerializedNetworkCall) : MsgReply
  | clearAck (success : Bool) : MsgReply
  | recordingStatus (success : Bool) (enabled : Bool) : MsgReply
  deriving DecidableEq, Repr

/-- The `chrome.runtime.onMessage` listener: returns the updated globals
and the reply sent, `none` when no branch matched (no `sendResponse`). -/
def handleMessage (st : BgState) (msg : PanelMessage) : BgState × Option MsgReply :=
  if msg.type = "GET_NETWORK_CALLS" then
    (st, some (MsgReply.calls
      ((flattenAll st.networkCallsByTab).map serializeNetworkCall)))
  else if msg.type = "CLEAR_NETWORK_CALLS" then
    ({ st with networkCallsByTab := clearAllTabs st.networkCallsByTab },
     some (MsgReply.clearAck true))
  else if msg.type = "TOGGLE_RECORDING" then
    match msg.enabled with
    | some b =>
      ({ st with isRecordingEnabled := b, storedFlag := some b },
       some (MsgReply.recordingStatus true b))
    | none =>
      (st, some (MsgReply.recordingStatus true st.isRecordingEnabled))
  else if msg.type = "GET_RECORDING_STATUS" then
    (st, some (MsgReply.recordingStatus true st.isRecordingEnabled))
  else
    (st, none)

/-! ## Background event loop -/

/-- One event delivered to the background script's event loop. -/
inductive Event where
  | beforeRequest (d : WebRequestBodyDetails) (now : Nat) : Event
  | completed (d : WebResponseDetails) (now : Nat) : Event
  | tabRemoved (tabId : Int) : Event
  | tabActivated (activeTabId : Int) : Event
  | message (msg : PanelMessage) : Event
  deriving DecidableEq, Repr

/-- State transition of one event (replies discarded). -/
def applyEvent (st : BgState) : Event → BgState
  | Event.beforeRequest d now => (onBeforeRequest st d now).1
  | Event.completed d now => onCompleted st d now
  | Event.tabRemoved tabId => onTabRemoved st tabId
  | Event.tabActivated aid => onTabActivated st aid
  | Event.message msg => (handleMessage st msg).1

/-- Run a sequence of events. -/
def runEvents (st : BgState) (evs : List Event) : BgState :=
  evs.foldl applyEvent st

/-! ## Panel (`extension/src/panel/index.tsx`) -/

/-- The JSON body `handleSubmit` posts to `/chat`:
`{message: input, networkCalls: limitedCalls}` where `limitedCalls` is the
completed-only snapshot capped to its last 100 entries. -/
structure ChatRequestBody where
  message : String
  networkCalls : List SerializedNetworkCall
  deriving DecidableEq, Repr

/-- JavaScript `arr.slice(-n)`: the at most `n` last elements of `arr`. -/
def sliceLast (l : List SerializedNetworkCall) (n : Nat) : List SerializedNetworkCall :=
  l.drop (l.length - n)

/-- The body construction in `handleSubmit`:
`completedCalls = latestNetworkCalls.filter(call => call.response !== null)`,
`limitedCalls = completedCalls.slice(-100)`. -/
def chatRequestBody (input : String) (latestNetworkCalls : List SerializedNetworkCall) :
    ChatRequestBody :=
  let completedCalls := latestNetworkCalls.filter (fun call => call.response.isSome)
  let limitedCalls := sliceLast completedCalls 100
  { message := input
    networkCalls := limitedCalls }

/-! ## JSON trees, for the serialize/re-parse round-trip -/

/-- A JSON value, as produced by `JSON.stringify`/`JSON.parse` on the
replacer's output (no booleans or floats appear there). -/
inductive Json where
  | null : Json
  | str (s : String) : Json
  | num (n : Nat) : Json
  | arr (elems : List Json) : Json
  | obj (fields : List (String × Json)) : Json

/-- Field lookup in a parsed JSON object. -/
def getField : List (String × Json) → String → Option Json
  | [], _ => none
  | (k, v) :: rest, key => if k = key then some v else getField rest key

/-- The JSON object a plain string-to-string header map prints as. -/
def encodeHeadersJson (hs : List (String × String)) : Json :=
  Json.obj (hs.map (fun p => (p.1, Json.str p.2)))

/-- Read a string-to-string map back out of a JSON object's fields. -/
def decodeHeaderFields : List (String × Json) → Option (List (String × String))
  | [] => some []
  | (k, Json.str v) :: rest => (decodeHeaderFields rest).map (fun t => (k, v) :: t)
  | _ => none

/-- Read a string-to-string map back out of a JSON value. -/
def decodeHeadersJson : Json → Option (List (String × String))
  | Json.obj fs => decodeHeaderFields fs
  | _ => none

/-- The JSON object a `bodyInfo` value prints as. -/
def encodeBodyInfo : BodyInfo → Json
  | BodyInfo.empty => Json.obj [("type", Json.str "empty")]
  | BodyInfo.strPreview p =>
      Json.obj [("type", Json.str "string"), ("preview", Json.str p)]
  | BodyInfo.streamNote n =>
      Json.obj [("type", Json.str "stream"), ("note", Json.str n)]

/-- Read a `bodyInfo` value back out of a JSON value. -/
def decodeBodyInfo : Json → Option BodyInfo
  | Json.obj fs =>
    match getField fs "type" with
    | some (Json.str "empty") => some BodyInfo.empty
    | some (Json.str "string") =>
      match getField fs "preview" with
      | some (Json.str p) => some (BodyInfo.strPreview p)
      | _ => none
    | some (Json.str "stream") =>
      match getField fs "note" with
      | some (Json.str n) => some (BodyInfo.streamNote n)
      | _ => none
    | _ => none
  | _ => none

/-- The JSON text of a serialized request, as a tree. -/
def encodeSerializedRequest (r : SerializedRequest) : Json :=
  Json.obj
    [("_type", Json.str "Request"),
     ("url", Json.str r.url),
     ("method", Json.str r.method),
     ("headers", encodeHeadersJson r.headers),
     ("timestamp", Json.num r.timestamp),
     ("requestId", Json.str r.requestId),
     ("bodyInfo", encodeBodyInfo r.bodyInfo)]

/-- Parse a serialized request back from a JSON tree. -/
def decodeSerializedRequest (j : Json) : Option SerializedRequest :=
  match j with
  | Json.obj fs =>
    match getField fs "url", getField fs "method", getField fs "headers",
          getField fs "timestamp", getField fs "requestId", getField fs "bodyInfo" with
    | some (Json.str u), some (Json.str m), some hj,
      some (Json.num ts), some (Json.str rid), some bj =>
      match decodeHeadersJson hj, decodeBodyInfo bj with
      | some hs, some bi =>
        some { url := u, method := m, headers := hs, timestamp := ts,
               requestId := rid, bodyInfo := bi }
      | _, _ => none
    | _, _, _, _, _, _ => none
  | _ => none

/-- The JSON text of a serialized response, as a tree. -/
def encodeSerializedResponse (r : SerializedResponse) : Json :=
  Json.obj
    [("_type", Json.str "Response"),
     ("status", Json.num r.status),
     ("statusText", Json.str r.statusText),
     ("headers", encodeHeadersJson r.headers),
     ("timestamp", Json.num r.timestamp),
     ("requestId", Json.str r.requestId),
     ("bodyInfo", encodeBodyInfo r.bodyInfo)]

/-- Parse a serialized response back from a JSON tree. -/
def decodeSerializedResponse (j : Json) : Option SerializedResponse :=
  match j with
  | Json.obj fs =>
    match getField fs "status", getField fs "statusText", getField fs "headers",
          getField fs "timestamp", getField fs "requestId", getField fs "bodyInfo" with
    | some (Json.num st), some (Json.str stx), some hj,
      some (Json.num ts), some (Json.str rid), some bj =>
      match decodeHeadersJson hj, decodeBodyInfo bj with
      | some hs, some bi =>
        some { status := st, statusText := stx, headers := hs, timestamp := ts,
               requestId := rid, bodyInfo := bi }
      | _, _ => none
    | _, _, _, _, _, _ => none
  | _ => none

/-- The JSON tree of one serialized network call
(`{request: ..., response: ... | null}`). -/
def encodeSerializedNetworkCall (c : SerializedNetworkCall) : Json :=
  Json.obj
    [("request", encodeSerializedRequest c.request),
     ("response", match c.response with
       | none => Json.null
       | some r => encodeSerializedResponse r)]

/-- Parse one serialized network call back from a JSON tree. -/
def decodeSerializedNetworkCall (j : Json) : Option SerializedNetworkCall :=
  match j with
  | Json.obj fs =>
    match getField fs "request", getField fs "response" with
    | some rj, some Json.null =>
      match decodeSerializedRequest rj with
      | some r => some { request := r, response := none }
      | none => none
    | some rj, some pj =>
      match decodeSerializedRequest rj, decodeSerializedResponse pj with
      | some r, some p => some { request := r, response := some p }
      | _, _ => none
    | _, _ => none
  | _ => none

/-! ## Association-list lemmas -/

/-- The key list of the tab map. -/
def keys (m : TabMap) : List Int := m.map Prod.fst

/-- A JavaScript object never holds the same key twice. -/
def NodupKeys (m : TabMap) : Prop := (keys m).Nodup

theorem lookupTab_setTab_self (m : TabMap) (t : Int) (l : List NetworkCall) :
    lookupTab (setTab m t l) t = some l := by
  induction m with
  | nil => simp [setTab, lookupTab]
  | cons p rest ih =>
    by_cases h : p.1 = t
    · simp [setTab, h, lookupTab]
    · simp [setTab, h, lookupTab, ih]

theorem lookupTab_setTab_ne (m : TabMap) (t : Int) (l : List NetworkCall)
    (u : Int) (h : u ≠ t) : lookupTab (setTab m t l) u = lookupTab m u := by
  induction m with
  | nil => simp [setTab, lookupTab, Ne.symm h]
  | cons p rest ih =>
    by_cases h1 : p.1 = t
    · subst h1
      simp [setTab, lookupTab, Ne.symm h, h]
    · by_cases h2 : p.1 = u
      · simp [setTab, h1, lookupTab, h2, h]
      · simp [setTab, h1, lookupTab, h2, ih]

theorem setTab_setTab (m : TabMap) (t : Int) (l l' : List NetworkCall) :
    setTab (setTab m t l) t l' = setTab m t l' := by
  induction m with
  | nil => simp [setTab]
  | cons p rest ih =>
    by_cases h : p.1 = t
    · simp [setTab, h]
    · simp [setTab, h, ih]

theorem setTab_lookup_eq (m : TabMap) (t : Int) (l : List NetworkCall)
    (h : lookupTab m t = some l) : setTab m t l = m := by
  induction m with
  | nil => simp [lookupTab] at h
  | cons p rest ih =>
    rcases p with ⟨t0, l0⟩
    by_cases h1 : t0 = t
    · subst h1
      have he : lookupTab ((t0, l0) :: rest) t0 = some l0 := by
        simp [lookupTab]
      rw [he, Option.some_inj] at h
      subst h
      simp [setTab]
    · have he : lookupTab ((t0, l0) :: rest) t = lookupTab rest t := by
        simp [lookupTab, h1]
      rw [he] at h
      simp [setTab, h1, ih h]

theorem lookupTab_eraseTab_ne (m : TabMap) (t u : Int) (h : u ≠ t) :
    lookupTab (eraseTab m t) u = lookupTab m u := by
  induction m with
  | nil => simp [eraseTab]
  | cons p rest ih =>
    by_cases h1 : p.1 = t
    · subst h1
      simp [eraseTab, lookupTab, Ne.symm h]
    · simp [eraseTab, h1, lookupTab, ih]

theorem lookupTab_isSome_iff_mem_keys (m : TabMap) (t : Int) :
    (lookupTab m t).isSome ↔ t ∈ keys m := by
  induction m with
  | nil => simp [lookupTab, keys]
  | cons p rest ih =>
    by_cases h : p.1 = t
    · simp [lookupTab, h, keys]
    · simp [lookupTab, h, keys, Ne.symm h, ih]

theorem lookupTab_eraseTab_self (m : TabMap) (t : Int) (h : NodupKeys m) :
    lookupTab (eraseTab m t) t = none := by
  induction m with
  | nil => simp [eraseTab, lookupTab]
  | cons p rest ih =>
    rcases p with ⟨t0, l0⟩
    simp only [NodupKeys, keys, List.map_cons, List.nodup_cons] at h
    by_cases h1 : t0 = t
    · subst h1
      simp only [eraseTab, if_pos rfl]
      cases ho : lookupTab rest t0 with
      | none => exact ho
      | some l =>
        exfalso
        have : t0 ∈ keys rest := by
          rw [← lookupTab_isSome_iff_mem_keys, ho]
          rfl
        exact h.1 this
    · simp only [eraseTab, if_neg h1, lookupTab, if_neg h1]
      exact ih h.2

theorem mem_keys_setTab (m : TabMap) (t : Int) (l : List NetworkCall) (a : Int) :
    a ∈ keys (setTab m t l) ↔ a ∈ keys m ∨ a = t := by
  induction m with
  | nil => simp [setTab, keys]
  | cons p rest ih =>
    by_cases h : p.1 = t
    · subst h
      simp [setTab, keys]
      tauto
    · simp [setTab, h, keys] at ih ⊢
      tauto

theorem nodupKeys_setTab (m : TabMap) (t : Int) (l : List NetworkCall)
    (h : NodupKeys m) : NodupKeys (setTab m t l) := by
  induction m with
  | nil => simp [setTab, NodupKeys, keys]
  | cons p rest ih =>
    rcases p with ⟨t0, l0⟩
    simp only [NodupKeys, keys, List.map_cons, List.nodup_cons] at h
    by_cases h1 : t0 = t
    · subst h1
      have hs : setTab ((t0, l0) :: rest) t0 l = (t0, l) :: rest := by
        simp [setTab]
      rw [hs]
      simp only [NodupKeys, keys, List.map_cons, List.nodup_cons]
      exact h
    · have hs : setTab ((t0, l0) :: rest) t l = (t0, l0) :: setTab rest t l := by
        simp [setTab, h1]
      rw [hs]
      simp only [NodupKeys, keys, List.map_cons, List.nodup_cons]
      refine ⟨fun hmem => ?_, ih h.2⟩
      rcases (mem_keys_setTab rest t l t0).mp hmem with hm | he
      · exact h.1 hm
      · exact h1 he

theorem keys_eraseTab_sublist (m : TabMap) (t : Int) :
    (keys (eraseTab m t)).Sublist (keys m) := by
  induction m with
  | nil => simp [eraseTab]
  | cons p rest ih =>
    by_cases h : p.1 = t
    · simp only [eraseTab, if_pos h, keys, List.map_cons]
      exact (List.sublist_cons_self _ _)
    · simp only [eraseTab, if_neg h, keys, List.map_cons]
      exact List.Sublist.cons₂ _ ih

theorem nodupKeys_eraseTab (m : TabMap) (t : Int) (h : NodupKeys m) :
    NodupKeys (eraseTab m t) :=
  List.Nodup.sublist (keys_eraseTab_sublist m t) h

theorem keys_clearAllTabs (m : TabMap) : keys (clearAllTabs m) = keys m := by
  induction m with
  | nil => rfl
  | cons p rest ih =>
    have h1 : clearAllTabs (p :: rest) = (p.1, []) :: clearAllTabs rest := rfl
    rw [h1]
    have h2 : keys ((p.1, ([] : List NetworkCall)) :: clearAllTabs rest)
        = p.1 :: keys (clearAllTabs rest) := rfl
    rw [h2, ih]
    rfl

theorem nodupKeys_clearAllTabs (m : TabMap) (h : NodupKeys m) :
    NodupKeys (clearAllTabs m) := by
  unfold NodupKeys
  rw [keys_clearAllTabs]
  exact h

theorem lookupTab_clearAllTabs (m : TabMap) (t : Int) :
    lookupTab (clearAllTabs m) t = (lookupTab m t).map (fun _ => []) := by
  induction m with
  | nil => simp [clearAllTabs, lookupTab]
  | cons p rest ih =>
    have h1 : clearAllTabs (p :: rest) = (p.1, []) :: clearAllTabs rest := rfl
    rw [h1]
    by_cases h : p.1 = t
    · simp [lookupTab, h]
    · simp only [lookupTab, if_neg h]
      exact ih

theorem getTabCalls_clearAllTabs (m : TabMap) (t : Int) :
    getTabCalls (clearAllTabs m) t = [] := by
  unfold getTabCalls
  rw [lookupTab_clearAllTabs]
  cases lookupTab m t with
  | none => rfl
  | some l => rfl

theorem flattenAll_clearAllTabs (m : TabMap) : flattenAll (clearAllTabs m) = [] := by
  induction m with
  | nil => rfl
  | cons p rest ih =>
    have h1 : clearAllTabs (p :: rest) = (p.1, []) :: clearAllTabs rest := rfl
    rw [h1]
    have h2 : flattenAll ((p.1, ([] : List NetworkCall)) :: clearAllTabs rest)
        = [] ++ flattenAll (clearAllTabs rest) := rfl
    rw [h2, ih]
    rfl

theorem getTabCalls_setTab_self (m : TabMap) (t : Int) (l : List NetworkCall) :
    getTabCalls (setTab m t l) t = l := by
  unfold getTabCalls; rw [lookupTab_setTab_self]; rfl

theorem getTabCalls_setTab_ne (m : TabMap) (t : Int) (l : List NetworkCall)
    (u : Int) (h : u ≠ t) : getTabCalls (setTab m t l) u = getTabCalls m u := by
  unfold getTabCalls; rw [lookupTab_setTab_ne m t l u h]

/-! ## setFirstMatch lemmas -/

theorem setFirstMatch_length (l : List NetworkCall) (rid : String)
    (r : NetworkResponse) : (setFirstMatch l rid r).length = l.length := by
  induction l with
  | nil => rfl
  | cons c rest ih =>
    by_cases h : c.request.requestId = rid
    · simp [setFirstMatch, h]
    · simp [setFirstMatch, h, ih]

theorem setFirstMatch_of_no_match (l : List NetworkCall) (rid : String)
    (r : NetworkResponse) (h : ∀ c ∈ l, c.request.requestId ≠ rid) :
    setFirstMatch l rid r = l := by
  induction l with
  | nil => rfl
  | cons c rest ih =>
    have hc : c.request.requestId ≠ rid := h c (List.mem_cons_self c rest)
    simp only [setFirstMatch, if_neg hc]
    rw [ih (fun c' hc' => h c' (List.mem_cons_of_mem c hc'))]

theorem setFirstMatch_spec (l : List NetworkCall) (rid : String)
    (r : NetworkResponse) (h : ∃ c ∈ l, c.request.requestId = rid) :
    ∃ i, ∃ hi : i < l.length,
      (l.get ⟨i, hi⟩).request.requestId = rid ∧
      setFirstMatch l rid r = l.set i { l.get ⟨i, hi⟩ with response := some r } := by
  induction l with
  | nil => simp at h
  | cons c rest ih =>
    by_cases hc : c.request.requestId = rid
    · refine ⟨0, by simp, hc, ?_⟩
      simp [setFirstMatch, hc]
    · have hrest : ∃ c' ∈ rest, c'.request.requestId = rid := by
        rcases h with ⟨c', hm, he⟩
        rcases List.mem_cons.mp hm with h0 | h0
        · exact absurd (h0 ▸ he) hc
        · exact ⟨c', h0, he⟩
      rcases ih hrest with ⟨i, hi, hmatch, heq⟩
      refine ⟨i + 1, by simpa using Nat.succ_lt_succ hi, ?_, ?_⟩
      · simpa using hmatch
      · simp only [setFirstMatch, if_neg hc, List.set_cons_succ]
        rw [heq]
        simp

/-- Pointwise effect of `setFirstMatch`: a surviving record keeps its
request, and a non-null response never becomes null. -/
theorem setFirstMatch_pointwise (l : List NetworkCall) (rid : String)
    (r : NetworkResponse) (i : Nat) (c c' : NetworkCall)
    (hold : l[i]? = some c) (hnew : (setFirstMatch l rid r)[i]? = some c') :
    c'.request = c.request ∧ (c.response.isSome → c'.response.isSome) := by
  induction l generalizing i with
  | nil => simp at hold
  | cons c0 rest ih =>
    by_cases h : c0.request.requestId = rid
    · simp only [setFirstMatch, if_pos h] at hnew
      cases i with
      | zero =>
        simp only [List.getElem?_cons_zero, Option.some_inj] at hold hnew
        subst hold
        subst hnew
        exact ⟨rfl, fun _ => rfl⟩
      | succ n =>
        simp only [List.getElem?_cons_succ] at hold hnew
        rw [hold] at hnew
        cases hnew
        exact ⟨rfl, fun hs => hs⟩
    · simp only [setFirstMatch, if_neg h] at hnew
      cases i with
      | zero =>
        simp only [List.getElem?_cons_zero, Option.some_inj] at hold hnew
        subst hold
        subst hnew
        exact ⟨rfl, fun hs => hs⟩
      | succ n =>
        simp only [List.getElem?_cons_succ] at hold hnew
        exact ih n hold hnew

/-! ## Listener shape lemmas -/

theorem onBeforeRequest_skip (st : BgState) (d : WebRequestBodyDetails) (now : Nat)
    (h : isXhrOrFetch d.resourceType = false ∨ st.isRecordingEnabled = false) :
    (onBeforeRequest st d now).1 = st := by
  rcases h with h | h <;> simp [onBeforeRequest, h]

theorem onBeforeRequest_record (st : BgState) (d : WebRequestBodyDetails) (now : Nat)
    (h1 : isXhrOrFetch d.resourceType = true) (h2 : st.isRecordingEnabled = true) :
    (onBeforeRequest st d now).1 =
      { st with networkCallsByTab := setTab st.networkCallsByTab d.tabId (getTabCalls st.networkCallsByTab d.tabId ++ [mkNetworkCall d now]) } := by
  simp only [onBeforeRequest, h1, h2, not_true, if_neg, ite_false, Bool.not_eq_true]
  cases hl : lookupTab st.networkCallsByTab d.tabId with
  | none =>
    simp only [hl, Option.isNone_none, if_pos]
    rw [getTabCalls_setTab_self]
    have hg : getTabCalls st.networkCallsByTab d.tabId = [] := by
      unfold getTabCalls; rw [hl]; rfl
    rw [setTab_setTab, hg]
  | some calls =>
    simp only [hl, Option.isNone_some, if_neg, Bool.false_eq_true, not_false_eq_true]

theorem onBeforeRequest_flag (st : BgState) (d : WebRequestBodyDetails) (now : Nat) :
    ((onBeforeRequest st d now).1).isRecordingEnabled = st.isRecordingEnabled := by
  by_cases h1 : isXhrOrFetch d.resourceType
  · by_cases h2 : st.isRecordingEnabled
    · rw [onBeforeRequest_record st d now h1 h2]
    · rw [onBeforeRequest_skip st d now (Or.inr (by simpa using h2))]
  · rw [onBeforeRequest_skip st d now (Or.inl (by simpa using h1))]

theorem onCompleted_skip (st : BgState) (d : WebResponseDetails) (now : Nat)
    (h : isXhrOrFetch d.resourceType = false ∨ st.isRecordingEnabled = false) :
    onCompleted st d now = st := by
  rcases h with h | h <;> simp [onCompleted, h]

theorem onCompleted_record (st : BgState) (d : WebResponseDetails) (now : Nat)
    (h1 : isXhrOrFetch d.resourceType = true) (h2 : st.isRecordingEnabled = true)
    (calls : List NetworkCall) (hl : lookupTab st.networkCallsByTab d.tabId = some calls) :
    onCompleted st d now =
      { st with networkCallsByTab := setTab st.networkCallsByTab d.tabId (setFirstMatch calls d.requestId (mkNetworkResponse d now)) } := by
  simp [onCompleted, h1, h2, hl]

theorem onCompleted_no_tab (st : BgState) (d : WebResponseDetails) (now : Nat)
    (hl : lookupTab st.networkCallsByTab d.tabId = none) :
    onCompleted st d now = st := by
  by_cases h1 : isXhrOrFetch d.resourceType
  · by_cases h2 : st.isRecordingEnabled
    · simp [onCompleted, h1, h2, hl]
    · exact onCompleted_skip st d now (Or.inr (by simpa using h2))
  · exact onCompleted_skip st d now (Or.inl (by simpa using h1))

theorem mem_flattenAll_of_lookup (m : TabMap) (t : Int) (calls : List NetworkCall)
    (hl : lookupTab m t = some calls) (c : NetworkCall) (hc : c ∈ calls) :
    c ∈ flattenAll m := by
  induction m with
  | nil => simp [lookupTab] at hl
  | cons p rest ih =>
    have hflat : flattenAll (p :: rest) = p.2 ++ flattenAll rest := rfl
    rw [hflat]
    by_cases h : p.1 = t
    · have he : lookupTab (p :: rest) t = some p.2 := by
        simp [lookupTab, h]
      rw [he, Option.some_inj] at hl
      subst hl
      exact List.mem_append_left _ hc
    · have he : lookupTab (p :: rest) t = lookupTab rest t := by
        simp [lookupTab, h]
      rw [he] at hl
      exact List.mem_append_right _ (ih hl)

/-! ## Claim theorems -/

/-- Claim C7: for every request-start event, regardless of the resource-type
filter outcome and of the recording flag, the onBeforeRequest handler
returns `{cancel: false}`; it never blocks or cancels the request. -/
theorem onBeforeRequest_never_cancels (st : BgState) (d : WebRequestBodyDetails)
    (now : Nat) : (onBeforeRequest st d now).2 = { cancel := false } := by
  by_cases h1 : isXhrOrFetch d.resourceType
  · by_cases h2 : st.isRecordingEnabled
    · simp [onBeforeRequest, h1, h2]
    · simp [onBeforeRequest, h1, h2]
  · simp [onBeforeRequest, h1]

/-- Claim C10: a TOGGLE_RECORDING message without an `enabled` property leaves
the recording flag and the stored flag unchanged (the whole state is
unchanged, so no storage write occurs) yet still replies
`{success: true, enabled: <current flag>}`. -/
theorem toggleRecording_without_enabled_noop (st : BgState) :
    handleMessage st { type := "TOGGLE_RECORDING", enabled := none } =
      (st, some (MsgReply.recordingStatus true st.isRecordingEnabled)) := by
  rfl

/-- Claim C3: while the recording flag is false, both the request-start and the
completion listener leave the state completely unchanged — in particular a
completion for a request recorded while the flag was on does not attach
its response. -/
theorem recording_off_ignores_both_listeners (st : BgState)
    (d1 : WebRequestBodyDetails) (d2 : WebResponseDetails) (now1 now2 : Nat)
    (h : st.isRecordingEnabled = false) :
    (onBeforeRequest st d1 now1).1 = st ∧ onCompleted st d2 now2 = st :=
  ⟨onBeforeRequest_skip st d1 now1 (Or.inr h),
   onCompleted_skip st d2 now2 (Or.inr h)⟩

/-- Claim C2: a completion event whose request identifier matches no stored
request leaves the state unchanged — the response is silently dropped and
no error is surfaced (the handler is total). -/
theorem onCompleted_unknown_id_noop (st : BgState) (d : WebResponseDetails)
    (now : Nat)
    (h : ∀ c ∈ flattenAll st.networkCallsByTab, c.request.requestId ≠ d.requestId) :
    onCompleted st d now = st := by
  by_cases h1 : isXhrOrFetch d.resourceType
  · by_cases h2 : st.isRecordingEnabled
    · cases hl : lookupTab st.networkCallsByTab d.tabId with
      | none => exact onCompleted_no_tab st d now hl
      | some calls =>
        rw [onCompleted_record st d now (by simpa using h1) (by simpa using h2) calls hl]
        rw [setFirstMatch_of_no_match calls d.requestId (mkNetworkResponse d now)
          (fun c hc => h c (mem_flattenAll_of_lookup _ _ _ hl c hc))]
        rw [setTab_lookup_eq _ _ _ hl]
    · exact onCompleted_skip st d now (Or.inr (by simpa using h2))
  · exact onCompleted_skip st d now (Or.inl (by simpa using h1))

/-- Claim C6: both a tab-activation change and a CLEAR_NETWORK_CALLS message
empty every tab's sequence (a global reset), so a subsequent
GET_NETWORK_CALLS reply carries an empty sequence. -/
theorem clear_is_global_reset (st : BgState) (aid : Int) (en : Option Bool) (t : Int) :
    getTabCalls ((onTabActivated st aid).networkCallsByTab) t = [] ∧
    flattenAll ((onTabActivated st aid).networkCallsByTab) = [] ∧
    getTabCalls (((handleMessage st { type := "CLEAR_NETWORK_CALLS", enabled := en }).1).networkCallsByTab) t = [] ∧
    flattenAll (((handleMessage st { type := "CLEAR_NETWORK_CALLS", enabled := en }).1).networkCallsByTab) = [] ∧
    (handleMessage (onTabActivated st aid) { type := "GET_NETWORK_CALLS", enabled := none }).2 = some (MsgReply.calls []) ∧
    (handleMessage ((handleMessage st { type := "CLEAR_NETWORK_CALLS", enabled := en }).1) { type := "GET_NETWORK_CALLS", enabled := none }).2 = some (MsgReply.calls []) := by
  have hclear : (handleMessage st { type := "CLEAR_NETWORK_CALLS", enabled := en }).1
      = { st with networkCallsByTab := clearAllTabs st.networkCallsByTab } := by
    simp [handleMessage]
  refine ⟨?_, ?_, ?_, ?_, ?_, ?_⟩
  · exact getTabCalls_clearAllTabs _ _
  · exact flattenAll_clearAllTabs _
  · rw [hclear]; exact getTabCalls_clearAllTabs _ _
  · rw [hclear]; exact flattenAll_clearAllTabs _
  · simp [handleMessage, onTabActivated, flattenAll_clearAllTabs]
  · rw [hclear]; simp [handleMessage, flattenAll_clearAllTabs]

/-- Claim C1: when a completion's request identifier matches a stored request in
the event's tab and recording is on, attaching the response keeps every
tab's sequence length unchanged, leaves other tabs untouched, and sets the
response field of exactly one stored record — one whose request identifier
matches — leaving every other record unchanged. -/
theorem onCompleted_attach_spec (st : BgState) (d : WebResponseDetails) (now : Nat)
    (h1 : isXhrOrFetch d.resourceType = true)
    (h2 : st.isRecordingEnabled = true)
    (hmatch : ∃ c ∈ getTabCalls st.networkCallsByTab d.tabId,
      c.request.requestId = d.requestId) :
    (∀ t, (getTabCalls ((onCompleted st d now).networkCallsByTab) t).length
        = (getTabCalls st.networkCallsByTab t).length) ∧
    (∀ t, t ≠ d.tabId →
      getTabCalls ((onCompleted st d now).networkCallsByTab) t
        = getTabCalls st.networkCallsByTab t) ∧
    (∃ i, ∃ hi : i < (getTabCalls st.networkCallsByTab d.tabId).length,
      ((getTabCalls st.networkCallsByTab d.tabId).get ⟨i, hi⟩).request.requestId = d.requestId ∧
      getTabCalls ((onCompleted st d now).networkCallsByTab) d.tabId
        = (getTabCalls st.networkCallsByTab d.tabId).set i
            { (getTabCalls st.networkCallsByTab d.tabId).get ⟨i, hi⟩ with
                response := some (mkNetworkResponse d now) }) := by
  cases hl : lookupTab st.networkCallsByTab d.tabId with
  | none =>
    exfalso
    rcases hmatch with ⟨c, hc, _⟩
    rw [getTabCalls, hl] at hc
    simp at hc
  | some calls =>
    have hget : getTabCalls st.networkCallsByTab d.tabId = calls := by
      rw [getTabCalls, hl]; rfl
    have hrec := onCompleted_record st d now h1 h2 calls hl
    have hnew : getTabCalls ((onCompleted st d now).networkCallsByTab) d.tabId
        = setFirstMatch calls d.requestId (mkNetworkResponse d now) := by
      rw [hrec]
      exact getTabCalls_setTab_self _ _ _
    refine ⟨?_, ?_, ?_⟩
    · intro t
      by_cases ht : t = d.tabId
      · subst ht
        rw [hnew, hget, setFirstMatch_length]
      · rw [hrec]
        rw [getTabCalls_setTab_ne _ _ _ t ht]
    · intro t ht
      rw [hrec]
      exact getTabCalls_setTab_ne _ _ _ t ht
    · rw [hget] at hmatch
      rcases setFirstMatch_spec calls d.requestId (mkNetworkResponse d now) hmatch
        with ⟨i, hi, hid, heq⟩
      refine ⟨i, ?_, ?_, ?_⟩
      · rw [hget]; exact hi
      · simpa [hget] using hid
      · rw [hnew, heq]
        congr 1 <;> simp [hget]

/-- The event stream of a list of request-start deliveries. -/
def beforeRequestEvents (evs : List (WebRequestBodyDetails × Nat)) : List Event :=
  evs.map (fun e => Event.beforeRequest e.1 e.2)

/-- Whether one request-start event qualifies for recording on tab `T`
with the flag at `rec`: right tab, XHR/fetch resource type, flag on. -/
def qualifiesFor (T : Int) (rec : Bool) (e : WebRequestBodyDetails × Nat) : Bool :=
  (e.1.tabId == T) && isXhrOrFetch e.1.resourceType && rec

/-- Claim C4: running any sequence of request-start events appends to tab `T`
exactly one record per qualifying start (XHR/fetch type, recording on,
right tab), in observation order, with no deduplication: repeated URLs
yield distinct entries because every qualifying event is mapped. -/
theorem starts_recorded_in_order (st : BgState)
    (evs : List (WebRequestBodyDetails × Nat)) (T : Int) :
    getTabCalls ((runEvents st (beforeRequestEvents evs)).networkCallsByTab) T
      = getTabCalls st.networkCallsByTab T ++
          (evs.filter (qualifiesFor T st.isRecordingEnabled)).map
            (fun e => mkNetworkCall e.1 e.2) := by
  induction evs generalizing st with
  | nil => simp [beforeRequestEvents, runEvents]
  | cons e rest ih =>
    have hrun : runEvents st (beforeRequestEvents (e :: rest))
        = runEvents ((onBeforeRequest st e.1 e.2).1) (beforeRequestEvents rest) := rfl
    rw [hrun]
    have hflag := onBeforeRequest_flag st e.1 e.2
    rw [ih ((onBeforeRequest st e.1 e.2).1), hflag]
    by_cases hq : isXhrOrFetch e.1.resourceType
    · by_cases hrec : st.isRecordingEnabled
      · rw [onBeforeRequest_record st e.1 e.2 hq hrec]
        by_cases ht : e.1.tabId = T
        · have hqual : qualifiesFor T st.isRecordingEnabled e = true := by
            simp [qualifiesFor, ht, hq, hrec]
          rw [List.filter_cons_of_pos hqual, List.map_cons]
          have : getTabCalls (setTab st.networkCallsByTab e.1.tabId (getTabCalls st.networkCallsByTab e.1.tabId ++ [mkNetworkCall e.1 e.2])) T = getTabCalls st.networkCallsByTab T ++ [mkNetworkCall e.1 e.2] := by
            rw [← ht]
            exact getTabCalls_setTab_self _ _ _
          rw [this, List.append_assoc]
          rfl
        · have hqual : qualifiesFor T st.isRecordingEnabled e = false := by
            simp [qualifiesFor, ht]
          rw [List.filter_cons_of_neg (by simp [hqual])]
          have : getTabCalls (setTab st.networkCallsByTab e.1.tabId (getTabCalls st.networkCallsByTab e.1.tabId ++ [mkNetworkCall e.1 e.2])) T = getTabCalls st.networkCallsByTab T :=
            getTabCalls_setTab_ne _ _ _ T (fun hTe => ht hTe.symm)
          rw [this]
      · have hst := onBeforeRequest_skip st e.1 e.2 (Or.inr (by simpa using hrec))
        rw [hst]
        have hqual : qualifiesFor T st.isRecordingEnabled e = false := by
          simp [qualifiesFor, Bool.eq_false_iff.mpr hrec]
        rw [List.filter_cons_of_neg (by simp [hqual])]
    · have hst := onBeforeRequest_skip st e.1 e.2 (Or.inl (by simpa using hq))
      rw [hst]
      have hqual : qualifiesFor T st.isRecordingEnabled e = false := by
        simp [qualifiesFor, Bool.eq_false_iff.mpr hq]
      rw [List.filter_cons_of_neg (by simp [hqual])]

/-- Claim C5: every store operation changes a tab's sequence in one of four
ways only: it leaves it unchanged, appends one fresh record whose response
is `null`, sets exactly one existing record's response to a non-null value
(keeping its request), or clears the sequence. Hence every `NetworkCall`
is created with `response = null`, its response transitions at most once
from null to non-null, and it never reverts to null while it exists. -/
theorem networkCall_response_lifecycle (st : BgState) (ev : Event)
    (hnd : NodupKeys st.networkCallsByTab) (t : Int) :
    getTabCalls ((applyEvent st ev).networkCallsByTab) t
        = getTabCalls st.networkCallsByTab t ∨
    (∃ c : NetworkCall, c.response = none ∧
      getTabCalls ((applyEvent st ev).networkCallsByTab) t
        = getTabCalls st.networkCallsByTab t ++ [c]) ∨
    (∃ i, ∃ hi : i < (getTabCalls st.networkCallsByTab t).length,
      ∃ r : NetworkResponse,
      getTabCalls ((applyEvent st ev).networkCallsByTab) t
        = (getTabCalls st.networkCallsByTab t).set i
            { (getTabCalls st.networkCallsByTab t).get ⟨i, hi⟩ with response := some r }) ∨
    getTabCalls ((applyEvent st ev).networkCallsByTab) t = [] := by
  cases ev with
  | beforeRequest d now =>
    by_cases hq : isXhrOrFetch d.resourceType
    · by_cases hrec : st.isRecordingEnabled
      · have hrecd := onBeforeRequest_record st d now hq hrec
        by_cases ht : t = d.tabId
        · rw [ht]
          right; left
          refine ⟨mkNetworkCall d now, rfl, ?_⟩
          show getTabCalls ((onBeforeRequest st d now).1.networkCallsByTab) d.tabId = _
          rw [hrecd]
          exact getTabCalls_setTab_self _ _ _
        · left
          show getTabCalls ((onBeforeRequest st d now).1.networkCallsByTab) t = _
          rw [hrecd]
          exact getTabCalls_setTab_ne _ _ _ t ht
      · left
        show getTabCalls ((onBeforeRequest st d now).1.networkCallsByTab) t = _
        rw [onBeforeRequest_skip st d now (Or.inr (by simpa using hrec))]
    · left
      show getTabCalls ((onBeforeRequest st d now).1.networkCallsByTab) t = _
      rw [onBeforeRequest_skip st d now (Or.inl (by simpa using hq))]
  | completed d now =>
    by_cases hq : isXhrOrFetch d.resourceType
    · by_cases hrec : st.isRecordingEnabled
      · cases hl : lookupTab st.networkCallsByTab d.tabId with
        | none =>
          left
          show getTabCalls ((onCompleted st d now).networkCallsByTab) t = _
          rw [onCompleted_no_tab st d now hl]
        | some calls =>
          have hrecd := onCompleted_record st d now (by simpa using hq)
            (by simpa using hrec) calls hl
          by_cases ht : t = d.tabId
          · rw [ht]
            have hget : getTabCalls st.networkCallsByTab d.tabId = calls := by
              rw [getTabCalls, hl]; rfl
            by_cases hm : ∃ c ∈ calls, c.request.requestId = d.requestId
            · right; right; left
              rcases setFirstMatch_spec calls d.requestId (mkNetworkResponse d now) hm
                with ⟨i, hi, _, heq⟩
              refine ⟨i, by rw [hget]; exact hi, mkNetworkResponse d now, ?_⟩
              show getTabCalls ((onCompleted st d now).networkCallsByTab) d.tabId = _
              rw [hrecd]
              rw [getTabCalls_setTab_self, heq]
              congr 1 <;> simp [hget]
            · left
              push_neg at hm
              show getTabCalls ((onCompleted st d now).networkCallsByTab) d.tabId = _
              rw [hrecd]
              rw [getTabCalls_setTab_self, setFirstMatch_of_no_match calls _ _ hm, hget]
          · left
            show getTabCalls ((onCompleted st d now).networkCallsByTab) t = _
            rw [hrecd]
            exact getTabCalls_setTab_ne _ _ _ t ht
      · left
        show getTabCalls ((onCompleted st d now).networkCallsByTab) t = _
        rw [onCompleted_skip st d now (Or.inr (by simpa using hrec))]
    · left
      show getTabCalls ((onCompleted st d now).networkCallsByTab) t = _
      rw [onCompleted_skip st d now (Or.inl (by simpa using hq))]
  | tabRemoved tabId =>
    by_cases ht : t = tabId
    · rw [ht]
      right; right; right
      show getTabCalls ((onTabRemoved st tabId).networkCallsByTab) tabId = []
      rw [onTabRemoved, getTabCalls]
      rw [lookupTab_eraseTab_self _ _ hnd]
      rfl
    · left
      show getTabCalls ((onTabRemoved st tabId).networkCallsByTab) t = _
      rw [onTabRemoved, getTabCalls, getTabCalls]
      rw [lookupTab_eraseTab_ne _ _ _ ht]
  | tabActivated aid =>
    right; right; right
    exact getTabCalls_clearAllTabs _ _
  | message msg =>
    by_cases hg : msg.type = "GET_NETWORK_CALLS"
    · left
      show getTabCalls (((handleMessage st msg).1).networkCallsByTab) t = _
      simp [handleMessage, hg]
    · by_cases hc : msg.type = "CLEAR_NETWORK_CALLS"
      · right; right; right
        show getTabCalls (((handleMessage st msg).1).networkCallsByTab) t = []
        simp only [handleMessage, hg, if_neg hg, hc, if_pos hc]
        exact getTabCalls_clearAllTabs _ _
      · by_cases htog : msg.type = "TOGGLE_RECORDING"
        · left
          show getTabCalls (((handleMessage st msg).1).networkCallsByTab) t = _
          cases he : msg.enabled with
          | some b => simp [handleMessage, hg, hc, htog, he]
          | none => simp [handleMessage, hg, hc, htog, he]
        · by_cases hs : msg.type = "GET_RECORDING_STATUS"
          · left
            show getTabCalls (((handleMessage st msg).1).networkCallsByTab) t = _
            simp [handleMessage, hg, hc, htog, hs]
          · left
            show getTabCalls (((handleMessage st msg).1).networkCallsByTab) t = _
            simp [handleMessage, hg, hc, htog, hs]

/-! ## C8: the `/chat` request body -/

/-- Claim C8: the networkCalls array of the posted `/chat` body contains
only serialized calls with a non-null response, and at most the 100 most
recent such calls: it is a suffix of the completed-only snapshot whose
length is the number of completed calls capped at 100. -/
theorem chatRequestBody_completed_and_capped (input : String)
    (latest : List SerializedNetworkCall) :
    (∀ c ∈ (chatRequestBody input latest).networkCalls, c.response.isSome = true) ∧
    (chatRequestBody input latest).networkCalls.length ≤ 100 ∧
    (chatRequestBody input latest).networkCalls.IsSuffix
      (latest.filter (fun c => c.response.isSome)) ∧
    (chatRequestBody input latest).networkCalls.length
      = min (latest.filter (fun c => c.response.isSome)).length 100 := by
  simp only [chatRequestBody, sliceLast]
  refine ⟨?_, ?_, ?_, ?_⟩
  · intro c hc
    have hm : c ∈ latest.filter (fun c => c.response.isSome) :=
      List.mem_of_mem_drop hc
    exact (List.mem_filter.mp hm).2
  · rw [List.length_drop]
    omega
  · exact List.drop_suffix _ _
  · rw [List.length_drop]
    omega

/-! ## C9: serialize / re-parse round trip -/

theorem decodeHeaderFields_encode (hs : List (String × String)) :
    decodeHeaderFields (hs.map (fun p => (p.1, Json.str p.2))) = some hs := by
  induction hs with
  | nil => rfl
  | cons p rest ih =>
    rcases p with ⟨k, v⟩
    simp [decodeHeaderFields, ih]

theorem decodeHeadersJson_encode (hs : List (String × String)) :
    decodeHeadersJson (encodeHeadersJson hs) = some hs := by
  simp [decodeHeadersJson, encodeHeadersJson, decodeHeaderFields_encode]

theorem decodeBodyInfo_encode (b : BodyInfo) :
    decodeBodyInfo (encodeBodyInfo b) = some b := by
  cases b <;> rfl

theorem decodeSerializedRequest_encode (r : SerializedRequest) :
    decodeSerializedRequest (encodeSerializedRequest r) = some r := by
  rcases r with ⟨u, m, hs, ts, rid, bi⟩
  simp [encodeSerializedRequest, decodeSerializedRequest, getField,
    decodeHeadersJson_encode, decodeBodyInfo_encode]

theorem decodeSerializedResponse_encode (r : SerializedResponse) :
    decodeSerializedResponse (encodeSerializedResponse r) = some r := by
  rcases r with ⟨stt, stx, hs, ts, rid, bi⟩
  simp [encodeSerializedResponse, decodeSerializedResponse, getField,
    decodeHeadersJson_encode, decodeBodyInfo_encode]

theorem decodeSerializedNetworkCall_encode (c : SerializedNetworkCall) :
    decodeSerializedNetworkCall (encodeSerializedNetworkCall c) = some c := by
  rcases c with ⟨req, resp⟩
  cases resp with
  | none =>
    simp [encodeSerializedNetworkCall, decodeSerializedNetworkCall, getField,
      decodeSerializedRequest_encode]
  | some r =>
    rcases r with ⟨stt, stx, hs, ts, rid, bi⟩
    simp [encodeSerializedNetworkCall, decodeSerializedNetworkCall, getField,
      decodeSerializedRequest_encode, encodeSerializedResponse,
      decodeSerializedResponse, decodeHeadersJson_encode, decodeBodyInfo_encode]

/-- Claim C9: serializing a stored NetworkCall with the custom replacer and
re-parsing the JSON yields a record that preserves the request's url,
method, timestamp and requestId exactly, preserves the response's status,
statusText, timestamp and requestId exactly when a response is present,
and previews a string request body only up to its first 1000 characters. -/
theorem serializeNetworkCall_roundtrip (c : NetworkCall) (r : NetworkResponse)
    (b : String) :
    decodeSerializedNetworkCall (encodeSerializedNetworkCall (serializeNetworkCall c))
        = some (serializeNetworkCall c) ∧
    (serializeNetworkCall c).request.url = c.request.url ∧
    (serializeNetworkCall c).request.method = c.request.method ∧
    (serializeNetworkCall c).request.timestamp = c.request.timestamp ∧
    (serializeNetworkCall c).request.requestId = c.request.requestId ∧
    (serializeNetworkCall c).response = c.response.map serializeNetworkResponse ∧
    (serializeNetworkResponse r).status = r.status ∧
    (serializeNetworkResponse r).statusText = r.statusText ∧
    (serializeNetworkResponse r).timestamp = r.timestamp ∧
    (serializeNetworkResponse r).requestId = r.requestId ∧
    serializeBody (ReqBody.strBody b) = BodyInfo.strPreview (b.take 1000) :=
  ⟨decodeSerializedNetworkCall_encode _, rfl, rfl, rfl, rfl, rfl, rfl, rfl,
   rfl, rfl, rfl⟩

/-! ## Concrete fixtures and witnesses -/

/-- A recorded XHR call on tab 5 awaiting its response. -/
def exCall : NetworkCall :=
  { request :=
      { url := "https://api.example.com/items", method := "GET", headers := [],
        timestamp := 3, requestId := "r1", body := ReqBody.nullBody }
    response := none }

/-- A background state holding `exCall` on tab 5, recording on. -/
def exState : BgState :=
  { networkCallsByTab := [(5, [exCall])], isRecordingEnabled := true,
    storedFlag := none }

/-- The same state with recording switched off. -/
def exStateOff : BgState :=
  { exState with isRecordingEnabled := false }

/-- A request-start event on tab 5. -/
def exRequestDetails : WebRequestBodyDetails :=
  { url := "https://api.example.com/items", method := "POST",
    resourceType := "xmlhttprequest", tabId := 5, requestId := "r2",
    requestBody := some "payload" }

/-- The completion event matching `exCall`. -/
def exResponseDetails : WebResponseDetails :=
  { resourceType := "fetch", tabId := 5, requestId := "r1", statusCode := 200,
    statusLine := "HTTP/1.1 200 OK" }

/-- A completion event whose request identifier matches nothing stored. -/
def exUnknownCompletion : WebResponseDetails :=
  { resourceType := "xmlhttprequest", tabId := 5, requestId := "r-unknown",
    statusCode := 404, statusLine := "" }

/-- Witness for C1 at a concrete state: attaching the matching response to
tab 5 leaves the sequence length unchanged. -/
theorem onCompleted_attach_spec_witness :
    (getTabCalls ((onCompleted exState exResponseDetails 7).networkCallsByTab) 5).length
      = (getTabCalls exState.networkCallsByTab 5).length :=
  (onCompleted_attach_spec exState exResponseDetails 7 (by decide) (by decide)
    (by decide)).1 5

/-- Witness for C2 at a concrete state: a completion with an unknown
request identifier is a no-op. -/
theorem onCompleted_unknown_id_noop_witness :
    onCompleted exState exUnknownCompletion 9 = exState :=
  onCompleted_unknown_id_noop exState exUnknownCompletion 9 (by decide)

/-- Witness for C3 at a concrete state: with recording off, both listeners
leave the state unchanged. -/
theorem recording_off_witness :
    (onBeforeRequest exStateOff exRequestDetails 4).1 = exStateOff ∧
    onCompleted exStateOff exResponseDetails 7 = exStateOff :=
  recording_off_ignores_both_listeners exStateOff exRequestDetails
    exResponseDetails 4 7 rfl

/-- Witness for C5 at a concrete state and event. -/
theorem networkCall_response_lifecycle_witness :
    getTabCalls ((applyEvent exState (Event.tabActivated 3)).networkCallsByTab) 5
        = getTabCalls exState.networkCallsByTab 5 ∨
    (∃ c : NetworkCall, c.response = none ∧
      getTabCalls ((applyEvent exState (Event.tabActivated 3)).networkCallsByTab) 5
        = getTabCalls exState.networkCallsByTab 5 ++ [c]) ∨
    (∃ i, ∃ hi : i < (getTabCalls exState.networkCallsByTab 5).length,
      ∃ r : NetworkResponse,
      getTabCalls ((applyEvent exState (Event.tabActivated 3)).networkCallsByTab) 5
        = (getTabCalls exState.networkCallsByTab 5).set i
            { (getTabCalls exState.networkCallsByTab 5).get ⟨i, hi⟩ with
                response := some r }) ∨
    getTabCalls ((applyEvent exState (Event.tabActivated 3)).networkCallsByTab) 5 = [] :=
  networkCall_response_lifecycle exState (Event.tabActivated 3)
    (by unfold NodupKeys; decide) 5

end Lurker
